import Mathlib

/-!
Shallow embedding of the core of `chat_engine.py` (intent classifier, answer
resolver, response renderer, text normalizer) of the opm-technical-bot
repository, together with proofs about the claims of its specification.

Modelling conventions:
* A pandas row of the knowledge base is a `Record` of four string fields,
  the dataframe `df` is a `List Record`; an empty or unloadable store is `[]`.
* Python strings are Lean `String`s; `lower` / `upper` / `strip` and the
  regex character classes are modelled at the ASCII level, matching the
  behaviour of the source on all inputs relevant here.
* `re.sub(r'\D', '', s)` is modelled as keeping the characters `0`-`9`.
* `pandas str.contains` is used by the source with the search term as the
  pattern and its default `regex=True`: the term is a regular expression,
  and an invalid one raises `re.error` out of `find_best_answer`.  A pattern
  free of regex metacharacters matches exactly where it occurs as a
  substring, which is how `nameSearchRows` models the filter; the predicate
  `regexFree` delimits that domain, and every theorem whose search reaches
  the name filter carries it as a hypothesis.
* The mojibake byte sequences of the source (`ðŸ’¡` for
  the UTF-8-double-encoded light-bulb, etc.) are kept verbatim because the
  resolver pattern-matches the renderer output on them.
* The `str(dict)` / `ast.literal_eval` round trip between
  `find_best_answer` and `generate_ai_response` is modelled by the tagged
  type `Desc`; a descriptor string that fails to decode is `none`.
-/

/-! ### Character helpers (ASCII models of Python's str methods) -/

def isDigitC (c : Char) : Bool := 48 ≤ c.toNat && c.toNat ≤ 57

def isSpaceC (c : Char) : Bool := c.toNat == 32 || (9 ≤ c.toNat && c.toNat ≤ 13)

def isWordC (c : Char) : Bool :=
  isDigitC c || (65 ≤ c.toNat && c.toNat ≤ 90) || (97 ≤ c.toNat && c.toNat ≤ 122) || c.toNat == 95

def lowerC (c : Char) : Char :=
  if 65 ≤ c.toNat && c.toNat ≤ 90 then Char.ofNat (c.toNat + 32) else c

def upperC (c : Char) : Char :=
  if 97 ≤ c.toNat && c.toNat ≤ 122 then Char.ofNat (c.toNat - 32) else c

def lowerStr (s : String) : String := String.mk (s.data.map lowerC)

def upperStr (s : String) : String := String.mk (s.data.map upperC)

def stripL (l : List Char) : List Char :=
  ((l.dropWhile isSpaceC).reverse.dropWhile isSpaceC).reverse

def stripStr (s : String) : String := String.mk (stripL s.data)

/-! ### Substring and prefix tests (Python's `in` on strings) -/

def hasPrefixL : List Char → List Char → Bool
  | [], _ => true
  | _ :: _, [] => false
  | p :: ps, c :: cs => p == c && hasPrefixL ps cs

def hasSubL (pat : List Char) : List Char → Bool
  | [] => hasPrefixL pat []
  | c :: cs => hasPrefixL pat (c :: cs) || hasSubL pat cs

def strHas (s pat : String) : Bool := hasSubL pat.data s.data

/-- Strip a literal pattern from the front of a character list,
returning the remainder on success. -/
def dropPref : List Char → List Char → Option (List Char)
  | [], cs => some cs
  | _ :: _, [] => none
  | p :: ps, c :: cs => if p == c then dropPref ps cs else none

/-! ### Lexicographic string order and sorting (Python `sorted` on str) -/

def listLtC : List Char → List Char → Bool
  | [], [] => false
  | [], _ :: _ => true
  | _ :: _, [] => false
  | a :: as, b :: bs =>
    if a.toNat < b.toNat then true
    else if b.toNat < a.toNat then false
    else listLtC as bs

def strLt (a b : String) : Bool := listLtC a.data b.data

def insSorted (x : String) : List String → List String
  | [] => [x]
  | y :: t => if strLt y x then y :: insSorted x t else x :: y :: t

def sortStr (l : List String) : List String := l.foldr insSorted []

/-! ### First-occurrence deduplication (pandas `unique` / `drop_duplicates`) -/

def dedupFrom {α : Type} [BEq α] (seen : List α) : List α → List α
  | [] => []
  | a :: t => if seen.contains a then dedupFrom seen t else a :: dedupFrom (a :: seen) t

def dedupF {α : Type} [BEq α] (l : List α) : List α := dedupFrom [] l

/-! ### Regex models -/

/-- Model of one attempt of `\b\d{4,5}\b` at the current position: a maximal
digit run of length 4 or 5 that is followed by a non-word character or the
end of the string. -/
def matchCodeHere (cs : List Char) : Option (List Char) :=
  let run := cs.takeWhile isDigitC
  if (run.length == 4 || run.length == 5) &&
      (match cs.drop run.length with
       | [] => true
       | d :: _ => !isWordC d) then
    some run
  else none

/-- Left-to-right scan for the first match of `\b\d{4,5}\b`; the boolean
argument records whether the previous character was a word character
(no word boundary). -/
def firstCodeAux : Bool → List Char → Option (List Char)
  | _, [] => none
  | prevW, c :: cs =>
    match (if prevW then none else matchCodeHere (c :: cs)) with
    | some run => some run
    | none => firstCodeAux (isWordC c) cs

/-- `re.findall(r'\b\d{4,5}\b', s)[0]` when a match exists
(`find_best_answer` only uses the first match and emptiness). -/
def firstCode (s : String) : Option String := (firstCodeAux false s.data).map String.mk

/-- Model of one attempt of `re.search(r'\(Code: (\d+)\)', s)` at the current
position, returning the captured digit group. -/
def codeTagAt (cs : List Char) : Option (List Char) :=
  match dropPref "(Code: ".data cs with
  | none => none
  | some rest =>
    match rest.takeWhile isDigitC, rest.drop (rest.takeWhile isDigitC).length with
    | d :: ds, ')' :: _ => some (d :: ds)
    | _, _ => none

/-- The first match of `re.search(r'\(Code: (\d+)\)', s)`, scanning left to
right. -/
def findTag : List Char → Option (List Char)
  | [] => none
  | c :: cs =>
    match codeTagAt (c :: cs) with
    | some ds => some ds
    | none => findTag cs

/-- The boilerplate alternation of `find_best_answer` line 121, in source
order. -/
def boilerPhrases : List String :=
  ["what is the", "access code for", "code for", "setting name of",
   "name of code", "the code for", "setting name for"]

def tryPhrases : List String → List Char → Option (List Char)
  | [], _ => none
  | p :: ps, cs =>
    match dropPref p.data cs with
    | some r => some r
    | none => tryPhrases ps cs

/-- Model of `re.sub(r'(what is the|access code for|...)', '', s)`: at each
position the alternatives are tried in order; a match is deleted and the scan
resumes after it.  The fuel is the length of the list; every step consumes at
least one character. -/
def stripBoilerAux : Nat → List Char → List Char
  | 0, cs => cs
  | _ + 1, [] => []
  | fuel + 1, c :: cs =>
    match tryPhrases boilerPhrases (c :: cs) with
    | some r => stripBoilerAux fuel r
    | none => c :: stripBoilerAux fuel cs

def stripBoiler (l : List Char) : List Char := stripBoilerAux l.length l

/-- Model of one attempt of the separator `(\d+:)` of
`format_clean_description`: a maximal digit run at the head followed by a
colon. -/
def numColonAt (cs : List Char) : Option (List Char × List Char) :=
  match cs.takeWhile isDigitC, cs.drop (cs.takeWhile isDigitC).length with
  | d :: ds, ':' :: rest => some ((d :: ds) ++ [':'], rest)
  | _, _ => none

/-- Model of `re.split(r'(\d+:)', s)`: the parts list with the captured
separators kept, exactly as in Python. -/
def splitNumColon : Nat → List Char → List (List Char)
  | 0, cs => [cs]
  | _ + 1, [] => [[]]
  | fuel + 1, c :: cs =>
    match numColonAt (c :: cs) with
    | some (sep, rest) => [] :: sep :: splitNumColon fuel rest
    | none =>
      match splitNumColon fuel cs with
      | [] => [[c]]
      | p :: ps => (c :: p) :: ps

/-! ### Text normalizer -/

/-- `clean_to_digits` of chat_engine.py; the `Option` input models a missing
(`pd.isna`) scalar, a present scalar is its `str()` rendering. -/
def clean_to_digits (val : Option String) : String :=
  match val with
  | none => ""
  | some s =>
    if lowerStr s == "nan" || stripStr s == "" then ""
    else String.mk (stripL ((s.data.takeWhile (fun c => c != '.')).filter isDigitC))

def fmtPairs : List (List Char) → List String
  | [] => []
  | [label] => [String.mk label ++ " "]
  | label :: value :: rest =>
    (String.mk label ++ " " ++ String.mk (stripL value)) :: fmtPairs rest

/-- `format_clean_description` of chat_engine.py. -/
def format_clean_description (text : String) : String :=
  let t := stripStr text
  let parts := splitNumColon t.data.length t.data
  if parts.length ≤ 1 then t
  else String.intercalate " <br> " (fmtPairs (parts.drop 1))

/-! ### Intent classifier -/

inductive Intent : Type
  | CONFIRMATION
  | EXIT
  | NAME_QUERY
  | CODE_QUERY
  | CONVERSATIONAL
  | TECHNICAL
deriving DecidableEq, Repr

def confirmWords : List String :=
  ["yes", "y", "yep", "ok", "okay", "show", "show me", "got it", "correct"]

def exitWords : List String := ["no", "n", "nope", "stop", "exit", "cancel"]

def namePhrases : List String := ["setting name", "name of", "what is the name"]

def codePhrases : List String := ["access code for", "code for", "what is the code"]

def convWords : List String := ["hi", "hello", "hey", "thanks", "help"]

/-- `detect_intent` of chat_engine.py. -/
def detect_intent (text : String) : Intent :=
  if confirmWords.contains (stripStr (lowerStr text)) then Intent.CONFIRMATION
  else if exitWords.contains (stripStr (lowerStr text)) then Intent.EXIT
  else if namePhrases.any (fun p => hasSubL p.data (stripStr (lowerStr text)).data) then
    Intent.NAME_QUERY
  else if codePhrases.any (fun p => hasSubL p.data (stripStr (lowerStr text)).data) then
    Intent.CODE_QUERY
  else if convWords.any (fun w => hasSubL w.data (stripStr (lowerStr text)).data) then
    Intent.CONVERSATIONAL
  else Intent.TECHNICAL

/-! ### Data model -/

structure Record : Type where
  code : String
  name : String
  sub_code : String
  descr : String
deriving DecidableEq, Repr

structure Turn : Type where
  role : String
  content : String
deriving DecidableEq, Repr

inductive DStatus : Type
  | READY
  | DATA_MISSING
  | SHOW_PROCEDURE
  | NONE
deriving DecidableEq, Repr

/-- The tagged result descriptor: one constructor per value of the `mode`
key of the stringified dict built by `find_best_answer`.  `EMPTY` is the
empty dict `str()` used for the no-op returns. -/
inductive Desc : Type
  | NOT_FOUND (query : Option String)
  | EXIT
  | EMPTY
  | SUB_TABLE (table : String) (code : String)
  | NAME_ONLY (name : String) (code : String)
  | LIST (query : String) (content : String)
  | COMPARE (query : String) (table : String)
  | SINGLE (name : String) (code : String) (table : String)
deriving DecidableEq, Repr

inductive Tag : Type
  | NOT_FOUND_T
  | EXIT_T
  | EMPTY_T
  | SUB_TABLE_T
  | NAME_ONLY_T
  | LIST_T
  | COMPARE_T
  | SINGLE_T
deriving DecidableEq, Repr

def Desc.tag : Desc → Tag
  | .NOT_FOUND _ => .NOT_FOUND_T
  | .EXIT => .EXIT_T
  | .EMPTY => .EMPTY_T
  | .SUB_TABLE _ _ => .SUB_TABLE_T
  | .NAME_ONLY _ _ => .NAME_ONLY_T
  | .LIST _ _ => .LIST_T
  | .COMPARE _ _ => .COMPARE_T
  | .SINGLE _ _ _ => .SINGLE_T

/-- The 4-tuple returned by `find_best_answer`; the second component is the
always-empty context string of the source. -/
structure FBA : Type where
  handled : Bool
  context : String
  desc : Desc
  status : DStatus
deriving DecidableEq, Repr

/-! ### Answer resolver -/

def subMarker : String := "know the sub code"

def procMarker : String := "how to set the 08 code"

/-- The mojibake rendering of the light-bulb emoji as it appears (byte for
byte) both in the resolver check of line 113 and in the SINGLE/LIST/COMPARE
templates of the renderer. -/
def lightMarker : String := "ðŸ’¡"

def subLabel (s : String) : String := if s == "-" then "NA" else s

def mkSubTable (rows : List Record) : String :=
  String.intercalate "\n"
    ("| Sub-Code | Description / Values |" :: "| :--- | :--- |" ::
      rows.map (fun r =>
        "| " ++ subLabel r.sub_code ++ " | " ++ format_clean_description r.descr ++ " |"))

def mkListTable (pairs : List (String × String)) : String :=
  "| Access Code | Setting Name |\n| :--- | :--- |\n" ++
    String.join (pairs.map (fun p => "| " ++ p.1 ++ " | " ++ p.2 ++ " |\n"))

def headRec (rows : List Record) : Record := rows.headD ⟨"", "", "", ""⟩

def codeRows (df : List Record) (c : String) : List Record :=
  df.filter (fun r => r.code == c)

/-- Lines 135-137: exact lowercased name match, falling back to
`str.contains(search_term, na=False)`.  The source's pandas default
`regex=True` makes the term a regular expression; this definition implements
the substring semantics, which agrees with `re.search` exactly when the term
satisfies `regexFree`, and the theorems that traverse this filter assume
that. -/
def nameSearchRows (df : List Record) (st : String) : List Record :=
  if (df.filter (fun r => lowerStr r.name == st)).isEmpty then
    df.filter (fun r => hasSubL st.data (lowerStr r.name).data)
  else df.filter (fun r => lowerStr r.name == st)

/-- The characters Python `re` treats as special anywhere in a pattern. -/
def isRegexMetaC (c : Char) : Bool :=
  c == '.' || c == '^' || c == '$' || c == '*' || c == '+' || c == '?' ||
  c == '\x7b' || c == '\x7d' || c == '[' || c == ']' || c == '\\' || c == '|' ||
  c == '(' || c == ')'

/-- A pattern on which `re.search` is plain substring search: no regex
metacharacters, so the pandas `str.contains` filter of `nameSearchRows` is
byte-for-byte the source's behaviour on such terms. -/
def regexFree (s : String) : Bool := s.data.all (fun c => !isRegexMetaC c)

def userText (p : String) : String := stripStr (lowerStr p)

def searchTerm (ut : String) : String := stripStr (String.mk (stripBoiler ut.data))

def searchRows (df : List Record) (st : String) : List Record :=
  match firstCode st with
  | some c => codeRows df c
  | none => nameSearchRows df st

def uniqueCodes (rows : List Record) : List String :=
  sortStr (dedupF (rows.map (fun r => r.code)))

def dedupBySubFrom (seen : List String) : List Record → List Record
  | [] => []
  | r :: t =>
    if seen.contains r.sub_code then dedupBySubFrom seen t
    else r :: dedupBySubFrom (r.sub_code :: seen) t

/-- `rows.drop_duplicates(subset=[SUB_CODE_COL], keep='first')`. -/
def dedupBySub (rows : List Record) : List Record := dedupBySubFrom [] rows

def mkCompareTable (rows : List Record) (c1 c2 : String) : String :=
  String.intercalate "\n"
    (("| Sub | " ++ c1 ++ " (" ++ (headRec (codeRows rows c1)).name ++ ") | " ++
        c2 ++ " (" ++ (headRec (codeRows rows c2)).name ++ ") |") ::
      "| :--- | :--- | :--- |" ::
      (sortStr (dedupF (rows.map (fun r => r.sub_code)))).map (fun sub =>
        "| " ++ subLabel sub ++ " | " ++
          (match (rows.filter (fun r => r.code == c1 && r.sub_code == sub)).map
              (fun r => r.descr) with
           | [] => "-"
           | d :: _ => format_clean_description d) ++ " | " ++
          (match (rows.filter (fun r => r.code == c2 && r.sub_code == sub)).map
              (fun r => r.descr) with
           | [] => "-"
           | d :: _ => format_clean_description d) ++ " |"))

/-- Lines 143-177 of `find_best_answer`: turn the filtered rows into the
NOT_FOUND / LIST / COMPARE / SINGLE result. -/
def processRows (st : String) (rows : List Record) : FBA :=
  if rows.isEmpty then ⟨true, "", Desc.NOT_FOUND (some st), DStatus.DATA_MISSING⟩
  else if 2 < (uniqueCodes rows).length then
    ⟨true, "",
      Desc.LIST (upperStr st) (mkListTable (dedupF (rows.map (fun r => (r.code, r.name))))),
      DStatus.READY⟩
  else if (uniqueCodes rows).length = 2 then
    ⟨true, "",
      Desc.COMPARE (upperStr st)
        (mkCompareTable rows ((uniqueCodes rows).getD 0 "") ((uniqueCodes rows).getD 1 "")),
      DStatus.READY⟩
  else
    ⟨true, "",
      Desc.SINGLE (headRec (dedupBySub rows)).name (headRec (dedupBySub rows)).code
        (mkSubTable (dedupBySub rows)),
      DStatus.READY⟩

/-- Lines 97-118 of `find_best_answer`: the CONFIRMATION branch.  The fused
`if`/`findTag` mirrors the sequential Python checks: the SUB_TABLE return
needs both the sub-code marker and a `(Code: d+)` tag, anything else falls
through to the procedure-marker check. -/
def confirmBranch (df : List Record) (history : List Turn) : FBA :=
  match history.getLast? with
  | some turn =>
    match (if hasSubL subMarker.data turn.content.data then findTag turn.content.data
           else none) with
    | some ds =>
      ⟨true, "", Desc.SUB_TABLE (mkSubTable (codeRows df (String.mk ds))) (String.mk ds),
        DStatus.READY⟩
    | none =>
      if hasSubL procMarker.data turn.content.data ||
          hasSubL lightMarker.data turn.content.data then
        ⟨true, "", Desc.EMPTY, DStatus.SHOW_PROCEDURE⟩
      else ⟨false, "", Desc.EMPTY, DStatus.NONE⟩
  | none => ⟨false, "", Desc.EMPTY, DStatus.NONE⟩

/-- Lines 120-177 of `find_best_answer`: the technical search. -/
def searchBranch (df : List Record) (intent : Intent) (st : String) : FBA :=
  if st.data.length < 2 ∨ st = "ok" then ⟨false, "", Desc.EMPTY, DStatus.NONE⟩
  else
    match firstCode st with
    | some c =>
      if intent = Intent.NAME_QUERY ∧ codeRows df c ≠ [] then
        ⟨true, "", Desc.NAME_ONLY (headRec (codeRows df c)).name c, DStatus.READY⟩
      else processRows st (codeRows df c)
    | none =>
      if intent = Intent.CODE_QUERY ∧ nameSearchRows df st ≠ [] then
        ⟨true, "",
          Desc.NAME_ONLY (headRec (nameSearchRows df st)).name
            (headRec (nameSearchRows df st)).code,
          DStatus.READY⟩
      else processRows st (nameSearchRows df st)

/-- `find_best_answer` of chat_engine.py. -/
def find_best_answer (df : List Record) (user_prompt : String) (history : List Turn) : FBA :=
  if df.isEmpty then ⟨true, "", Desc.NOT_FOUND none, DStatus.DATA_MISSING⟩
  else if detect_intent (userText user_prompt) = Intent.EXIT then
    ⟨true, "", Desc.EXIT, DStatus.READY⟩
  else if detect_intent (userText user_prompt) = Intent.CONVERSATIONAL then
    ⟨false, "", Desc.EMPTY, DStatus.NONE⟩
  else if detect_intent (userText user_prompt) = Intent.CONFIRMATION then
    confirmBranch df history
  else searchBranch df (detect_intent (userText user_prompt)) (searchTerm (userText user_prompt))

/-! ### Response renderer -/

def notFoundMsg : String :=
  "ðŸ” I couldn\u0027t find any technical data for that. Please check the spelling or try the Access Code."

def procedureMsg : String :=
  "### ðŸ› ï¸ 08 Service Mode Procedure\n\n1. Go to **User Function** -> **Setting Icon**.\n2. Enter **Password** -> Select **08 Code**.\n3. Enter the **08 Code** -> Press **Enter**.\n4. Enter **Sub Code** -> **Enter**.\n5. Enter **Value** -> **Enter** to save."

def genericGreeting : String := "Hello! I am your Technical Assistant. How can I help you today?"

def fallbackGreeting : String := "Hello! How can I help you today?"

/-- `generate_ai_response` of chat_engine.py, as the single chunk each branch
yields.  `none` for the descriptor models a `data_str` on which
`ast.literal_eval` fails, landing in the `except` fallback. -/
def generate_ai_response (user_prompt : String) (d : Option Desc) (status : DStatus) : String :=
  if status = DStatus.DATA_MISSING then notFoundMsg
  else if status = DStatus.SHOW_PROCEDURE then procedureMsg
  else
    match d with
    | none => fallbackGreeting
    | some desc =>
      match desc with
      | .EXIT => "Understood. Let me know if you need help with other codes!"
      | .NAME_ONLY name code =>
        if detect_intent user_prompt = Intent.NAME_QUERY then
          "The setting name for **" ++ code ++ "** is **" ++ name ++ "**.\n\n " ++
            lightMarker ++ " Do you want to know the sub code for that? (Code: " ++ code ++ ")"
        else
          "The Access Code for **" ++ name ++ "** is **" ++ code ++ "**.\n\n " ++
            lightMarker ++ " Do you want to know the sub code for that? (Code: " ++ code ++ ")"
      | .SUB_TABLE table code =>
        "Here are the sub codes for code **" ++ code ++ "**:\n\n" ++ table ++ "\n\n " ++
          lightMarker ++ " Do you want to know how to set the 08 code?"
      | .SINGLE name code table =>
        "Technical Record for **" ++ name ++ "** (Code: " ++ code ++ ")\n\n" ++ table ++
          "\n\n" ++ lightMarker ++ " **Suggestion:** Type **Yes** to see the 08 procedure."
      | .LIST query content =>
        "I found several entries for **" ++ query ++ "**:\n\n" ++ content ++ "\n\n" ++
          lightMarker ++ " Please type the specific **Access Code** you need."
      | .COMPARE query table =>
        "### ðŸ“Š Side-by-Side Comparison: " ++ query ++ "\n\n" ++ table ++
          "\n\n" ++ lightMarker ++ " **Tip:** Use these to check state differences."
      | _ => genericGreeting

/-- Modelled from the spec (section 4.3, LIST bullet): the distinct
(code, name) pairs sorted by code ascending, for comparison with the table
the code actually builds. -/
def insSortedPair (x : String × String) : List (String × String) → List (String × String)
  | [] => [x]
  | y :: t => if strLt y.1 x.1 then y :: insSortedPair x t else x :: y :: t

def sortPairsByCode (l : List (String × String)) : List (String × String) :=
  l.foldr insSortedPair []

def specSortedListTable (rows : List Record) : String :=
  mkListTable (sortPairsByCode (dedupF (rows.map (fun r => (r.code, r.name)))))

/-! ### Helper lemmas -/

theorem isEmpty_false_of_ne_nil {α : Type} (l : List α) (h : l ≠ []) : l.isEmpty = false := by
  cases l with
  | nil => exact absurd rfl h
  | cons a t => rfl

theorem fba_eq_confirm (df : List Record) (p : String) (hist : List Turn)
    (hdf : df ≠ []) (h : detect_intent (userText p) = Intent.CONFIRMATION) :
    find_best_answer df p hist = confirmBranch df hist := by
  simp [find_best_answer, isEmpty_false_of_ne_nil df hdf, h]

theorem fba_eq_search (df : List Record) (p : String) (hist : List Turn)
    (hdf : df ≠ [])
    (h1 : detect_intent (userText p) ≠ Intent.EXIT)
    (h2 : detect_intent (userText p) ≠ Intent.CONVERSATIONAL)
    (h3 : detect_intent (userText p) ≠ Intent.CONFIRMATION) :
    find_best_answer df p hist =
      searchBranch df (detect_intent (userText p)) (searchTerm (userText p)) := by
  simp [find_best_answer, isEmpty_false_of_ne_nil df hdf, h1, h2, h3]

theorem length_insSorted (x : String) (l : List String) :
    (insSorted x l).length = l.length + 1 := by
  induction l with
  | nil => rfl
  | cons y t ih =>
    simp only [insSorted]
    split
    · simp [ih]
    · simp

theorem length_sortStr (l : List String) : (sortStr l).length = l.length := by
  induction l with
  | nil => rfl
  | cons x t ih =>
    show (insSorted x (sortStr t)).length = t.length + 1
    rw [length_insSorted, ih]

theorem dedupF_map_code_ne_nil (rows : List Record) (h : rows ≠ []) :
    dedupF (rows.map (fun r => r.code)) ≠ [] := by
  cases rows with
  | nil => exact absurd rfl h
  | cons r t => simp [dedupF, dedupFrom]

theorem processRows_nil (st : String) :
    processRows st [] = ⟨true, "", Desc.NOT_FOUND (some st), DStatus.DATA_MISSING⟩ := rfl

theorem processRows_pos (st : String) (rows : List Record) (h : rows ≠ []) :
    (processRows st rows).status = DStatus.READY ∧
    (processRows st rows).desc.tag =
      (if (dedupF (rows.map (fun r => r.code))).length = 1 then Tag.SINGLE_T
       else if (dedupF (rows.map (fun r => r.code))).length = 2 then Tag.COMPARE_T
       else Tag.LIST_T) := by
  have hne : rows.isEmpty = false := isEmpty_false_of_ne_nil rows h
  have hlen : (uniqueCodes rows).length = (dedupF (rows.map (fun r => r.code))).length :=
    length_sortStr _
  have hpos : (dedupF (rows.map (fun r => r.code))).length ≠ 0 := by
    intro h0
    exact dedupF_map_code_ne_nil rows h (List.eq_nil_of_length_eq_zero h0)
  by_cases h2 : 2 < (dedupF (rows.map (fun r => r.code))).length
  · have hn1 : (dedupF (rows.map (fun r => r.code))).length ≠ 1 := by omega
    have hn2 : (dedupF (rows.map (fun r => r.code))).length ≠ 2 := by omega
    simp [processRows, hne, hlen, h2, hn1, hn2, Desc.tag]
  · by_cases he2 : (dedupF (rows.map (fun r => r.code))).length = 2
    · simp [processRows, hne, hlen, h2, he2, Desc.tag]
    · have he1 : (dedupF (rows.map (fun r => r.code))).length = 1 := by omega
      simp [processRows, hne, hlen, h2, he2, he1, Desc.tag]

theorem searchRows_code (df : List Record) (st : String) (c : String)
    (h : firstCode st = some c) : searchRows df st = codeRows df c := by
  simp [searchRows, h]

theorem searchRows_name (df : List Record) (st : String)
    (h : firstCode st = none) : searchRows df st = nameSearchRows df st := by
  simp [searchRows, h]

/-- C1: for every non-empty record store and every utterance that reaches the
technical search (intent TECHNICAL, NAME_QUERY or CODE_QUERY, search term long
enough, and no NAME_ONLY short-circuit), the tag of the descriptor returned by
`find_best_answer` is determined by the number of distinct codes among the
filtered rows: zero matching rows give NOT_FOUND with status DATA_MISSING,
one distinct code gives SINGLE, two give COMPARE, three or more give LIST,
each with status READY.  When no digit token is found the search term feeds
the pandas regex filter, so the theorem assumes `regexFree` there, the domain
on which `nameSearchRows` is exact. -/
theorem c1_tag_by_distinct_codes
    (df : List Record) (p : String) (hist : List Turn)
    (hdf : df ≠ [])
    (hintent : detect_intent (userText p) = Intent.TECHNICAL ∨
               detect_intent (userText p) = Intent.NAME_QUERY ∨
               detect_intent (userText p) = Intent.CODE_QUERY)
    (hterm : ¬((searchTerm (userText p)).data.length < 2 ∨ searchTerm (userText p) = "ok"))
    (hsc1 : ¬(detect_intent (userText p) = Intent.NAME_QUERY ∧
              firstCode (searchTerm (userText p)) ≠ none ∧
              searchRows df (searchTerm (userText p)) ≠ []))
    (hsc2 : ¬(detect_intent (userText p) = Intent.CODE_QUERY ∧
              firstCode (searchTerm (userText p)) = none ∧
              searchRows df (searchTerm (userText p)) ≠ []))
    (_hrf : firstCode (searchTerm (userText p)) = none →
              regexFree (searchTerm (userText p)) = true) :
    (searchRows df (searchTerm (userText p)) = [] →
        find_best_answer df p hist =
          ⟨true, "", Desc.NOT_FOUND (some (searchTerm (userText p))), DStatus.DATA_MISSING⟩) ∧
    (searchRows df (searchTerm (userText p)) ≠ [] →
        (find_best_answer df p hist).status = DStatus.READY ∧
        (find_best_answer df p hist).desc.tag =
          (if (dedupF ((searchRows df (searchTerm (userText p))).map (fun r => r.code))).length = 1
            then Tag.SINGLE_T
           else if (dedupF ((searchRows df (searchTerm (userText p))).map
              (fun r => r.code))).length = 2
            then Tag.COMPARE_T
           else Tag.LIST_T)) := by
  have h1 : detect_intent (userText p) ≠ Intent.EXIT := by
    rcases hintent with h | h | h <;> simp [h]
  have h2 : detect_intent (userText p) ≠ Intent.CONVERSATIONAL := by
    rcases hintent with h | h | h <;> simp [h]
  have h3 : detect_intent (userText p) ≠ Intent.CONFIRMATION := by
    rcases hintent with h | h | h <;> simp [h]
  rw [fba_eq_search df p hist hdf h1 h2 h3]
  unfold searchBranch
  rw [if_neg hterm]
  cases hfc : firstCode (searchTerm (userText p)) with
  | some c =>
    have hsr : searchRows df (searchTerm (userText p)) = codeRows df c :=
      searchRows_code df _ c hfc
    have hnq : ¬(detect_intent (userText p) = Intent.NAME_QUERY ∧ codeRows df c ≠ []) := by
      rintro ⟨ha, hb⟩
      apply hsc1
      refine ⟨ha, ?_, ?_⟩
      · rw [hfc]; simp
      · rw [hsr]; exact hb
    dsimp only
    rw [if_neg hnq, hsr]
    constructor
    · intro hnil; rw [hnil, processRows_nil]
    · intro hne; exact processRows_pos _ _ hne
  | none =>
    have hsr : searchRows df (searchTerm (userText p)) = nameSearchRows df (searchTerm (userText p)) :=
      searchRows_name df _ hfc
    have hnq : ¬(detect_intent (userText p) = Intent.CODE_QUERY ∧
        nameSearchRows df (searchTerm (userText p)) ≠ []) := by
      rintro ⟨ha, hb⟩
      apply hsc2
      refine ⟨ha, hfc, ?_⟩
      rw [hsr]; exact hb
    dsimp only
    rw [if_neg hnq, hsr]
    constructor
    · intro hnil; rw [hnil, processRows_nil]
    · intro hne; exact processRows_pos _ _ hne

theorem c1_tag_by_distinct_codes_witness :
    (find_best_answer [⟨"6210", "alpha", "-", "No data"⟩] "6210" []).status = DStatus.READY ∧
    (find_best_answer [⟨"6210", "alpha", "-", "No data"⟩] "6210" []).desc.tag = Tag.SINGLE_T := by
  have h := (c1_tag_by_distinct_codes [⟨"6210", "alpha", "-", "No data"⟩] "6210" []
    (by decide) (Or.inl (by decide)) (by decide) (by decide) (by decide) (by decide)).2
    (by decide)
  refine ⟨h.1, ?_⟩
  rw [h.2]
  decide

/-- C3: for a non-empty record store, a CONFIRMATION utterance whose last
assistant turn (if any) contains neither the sub-code offer marker nor either
procedure offer marker resolves to the EMPTY descriptor with status NONE:
no record search happens. -/
theorem c3_confirmation_noop
    (df : List Record) (p : String) (hist : List Turn)
    (hdf : df ≠ [])
    (hint : detect_intent (userText p) = Intent.CONFIRMATION)
    (hlast : ∀ t, hist.getLast? = some t →
        hasSubL subMarker.data t.content.data = false ∧
        hasSubL procMarker.data t.content.data = false ∧
        hasSubL lightMarker.data t.content.data = false) :
    find_best_answer df p hist = ⟨false, "", Desc.EMPTY, DStatus.NONE⟩ := by
  rw [fba_eq_confirm df p hist hdf hint]
  unfold confirmBranch
  cases hg : hist.getLast? with
  | none => rfl
  | some t =>
    obtain ⟨ha, hb, hc⟩ := hlast t hg
    simp [ha, hb, hc]

theorem c3_confirmation_noop_witness :
    find_best_answer [⟨"6210", "alpha", "-", "No data"⟩] "yes" [] =
      ⟨false, "", Desc.EMPTY, DStatus.NONE⟩ :=
  c3_confirmation_noop [⟨"6210", "alpha", "-", "No data"⟩] "yes" []
    (by decide) (by decide) (fun t h => nomatch h)

/-- C5: `detect_intent` is a total function into the six intents (and, being a
Lean function, deterministic); the confirmation rule has top priority: any
input whose lowercased trimmed form is in the confirmation word set maps to
CONFIRMATION; in particular `"ok"` maps to CONFIRMATION and never to
TECHNICAL. -/
theorem c5_detect_intent_total_priority :
    (∀ s : String,
        (detect_intent s = Intent.CONFIRMATION ∨ detect_intent s = Intent.EXIT ∨
         detect_intent s = Intent.NAME_QUERY ∨ detect_intent s = Intent.CODE_QUERY ∨
         detect_intent s = Intent.CONVERSATIONAL ∨ detect_intent s = Intent.TECHNICAL) ∧
        (confirmWords.contains (stripStr (lowerStr s)) = true →
            detect_intent s = Intent.CONFIRMATION)) ∧
    detect_intent "ok" = Intent.CONFIRMATION ∧ detect_intent "ok" ≠ Intent.TECHNICAL := by
  refine ⟨fun s => ⟨?_, ?_⟩, by decide, by decide⟩
  · cases h : detect_intent s <;> simp
  · intro hc
    have hc2 : stripStr (lowerStr s) ∈ confirmWords := by simpa using hc
    simp [detect_intent, hc2]

theorem c5_detect_intent_total_priority_witness :
    confirmWords.contains (stripStr (lowerStr " OK ")) = true ∧
    detect_intent " OK " = Intent.CONFIRMATION :=
  ⟨by decide, ((c5_detect_intent_total_priority.1 " OK ").2) (by decide)⟩

/-- C6: an empty (or unloadable, hence empty) record store makes
`find_best_answer` return the NOT_FOUND descriptor with status DATA_MISSING
for every utterance, and the renderer maps status DATA_MISSING to the fixed
missing-data message whatever the descriptor holds. -/
theorem c6_empty_store_and_renderer :
    (∀ (p : String) (hist : List Turn),
        find_best_answer [] p hist = ⟨true, "", Desc.NOT_FOUND none, DStatus.DATA_MISSING⟩) ∧
    (∀ (p : String) (d : Option Desc),
        generate_ai_response p d DStatus.DATA_MISSING = notFoundMsg) := by
  exact ⟨fun p hist => rfl, fun p d => rfl⟩

/-- C7: a descriptor string that fails to decode (`none` in the model) with a
status other than DATA_MISSING and SHOW_PROCEDURE makes the renderer yield
the generic greeting fallback; the renderer is a total function, so no error
escapes to the caller. -/
theorem c7_renderer_fallback (p : String) (status : DStatus)
    (h1 : status ≠ DStatus.DATA_MISSING) (h2 : status ≠ DStatus.SHOW_PROCEDURE) :
    generate_ai_response p none status = fallbackGreeting := by
  unfold generate_ai_response
  rw [if_neg h1, if_neg h2]

theorem c7_renderer_fallback_witness :
    generate_ai_response "hello" none DStatus.READY = fallbackGreeting :=
  c7_renderer_fallback "hello" DStatus.READY (by decide) (by decide)

/-- C10: the conversational rule of `detect_intent` matches its trigger words
as substrings anywhere in the text; if none of the earlier rules fires and
one of the five greeting words occurs as a substring (even inside a longer
word), the intent is CONVERSATIONAL, never TECHNICAL. -/
theorem c10_conversational_substring (s : String)
    (h1 : confirmWords.contains (stripStr (lowerStr s)) = false)
    (h2 : exitWords.contains (stripStr (lowerStr s)) = false)
    (h3 : namePhrases.any (fun p => hasSubL p.data (stripStr (lowerStr s)).data) = false)
    (h4 : codePhrases.any (fun p => hasSubL p.data (stripStr (lowerStr s)).data) = false)
    (h5 : convWords.any (fun w => hasSubL w.data (stripStr (lowerStr s)).data) = true) :
    detect_intent s = Intent.CONVERSATIONAL := by
  have g1 : stripStr (lowerStr s) ∉ confirmWords := by simpa using h1
  have g2 : stripStr (lowerStr s) ∉ exitWords := by simpa using h2
  have g3 : ¬∃ x ∈ namePhrases, hasSubL x.data (stripStr (lowerStr s)).data = true := by
    simpa using h3
  have g4 : ¬∃ x ∈ codePhrases, hasSubL x.data (stripStr (lowerStr s)).data = true := by
    simpa using h4
  have g5 : ∃ x ∈ convWords, hasSubL x.data (stripStr (lowerStr s)).data = true := by
    simpa using h5
  simp [detect_intent, g1, g2, g3, g4, g5]

theorem c10_conversational_substring_witness :
    detect_intent "machine" = Intent.CONVERSATIONAL :=
  c10_conversational_substring "machine" (by decide) (by decide) (by decide) (by decide)
    (by decide)

theorem lowerC_digit (c : Char) (h : isDigitC c = true) : lowerC c = c := by
  simp only [isDigitC, Bool.and_eq_true, decide_eq_true_eq] at h
  have hno : ¬(65 ≤ c.toNat && c.toNat ≤ 90) = true := by
    simp only [Bool.and_eq_true, decide_eq_true_eq, not_and]
    omega
  simp [lowerC, hno]

theorem digit_not_space (c : Char) (h : isDigitC c = true) : isSpaceC c = false := by
  simp only [isDigitC, Bool.and_eq_true, decide_eq_true_eq] at h
  simp only [isSpaceC, Bool.or_eq_false_iff, Bool.and_eq_false_iff]
  constructor
  · simp only [beq_eq_false_iff_ne, ne_eq]
    omega
  · right
    simp only [decide_eq_false_iff_not, not_le]
    omega

theorem digit_ne_dot (c : Char) (h : isDigitC c = true) : (c != '.') = true := by
  rcases eq_or_ne c '.' with he | he
  · subst he
    exact absurd h (by decide)
  · simp [he]

theorem digit_ne_paren (c : Char) (h : isDigitC c = true) : c ≠ '(' := by
  intro he
  subst he
  exact absurd h (by decide)

theorem mem_stripL {l : List Char} {a : Char} (h : a ∈ stripL l) : a ∈ l := by
  unfold stripL at h
  rw [List.mem_reverse] at h
  have h2 := (List.dropWhile_sublist isSpaceC).mem h
  rw [List.mem_reverse] at h2
  exact (List.dropWhile_sublist isSpaceC).mem h2

theorem dropWhile_all_false {q : Char → Bool} {l : List Char}
    (h : ∀ c ∈ l, q c = false) : l.dropWhile q = l := by
  cases l with
  | nil => rfl
  | cons c t => simp [List.dropWhile, h c (List.mem_cons_self c t)]

theorem stripL_no_space {l : List Char} (h : ∀ c ∈ l, isSpaceC c = false) : stripL l = l := by
  unfold stripL
  rw [dropWhile_all_false h]
  rw [dropWhile_all_false (fun c hc => h c (List.mem_reverse.mp hc))]
  exact List.reverse_reverse l

theorem map_lowerC_digits (l : List Char) (h : ∀ c ∈ l, isDigitC c = true) :
    l.map lowerC = l := by
  induction l with
  | nil => rfl
  | cons c t ih =>
    rw [List.map_cons, lowerC_digit c (h c (List.mem_cons_self c t)),
      ih (fun x hx => h x (List.mem_cons_of_mem c hx))]

theorem clean_to_digits_some (s : String) :
    clean_to_digits (some s) =
      if lowerStr s == "nan" || stripStr s == "" then ""
      else String.mk (stripL ((s.data.takeWhile (fun c => c != '.')).filter isDigitC)) := rfl

theorem clean_to_digits_all_digits (v : Option String) :
    ∀ c ∈ (clean_to_digits v).data, isDigitC c = true := by
  cases v with
  | none => intro c hc; exact absurd hc (by simp [clean_to_digits])
  | some s =>
    intro c hc
    rw [clean_to_digits_some] at hc
    by_cases hg : (lowerStr s == "nan" || stripStr s == "") = true
    · rw [if_pos hg] at hc
      exact absurd hc (by simp)
    · rw [if_neg hg] at hc
      have hc2 : c ∈ (s.data.takeWhile (fun c => c != '.')).filter isDigitC := mem_stripL hc
      exact (List.mem_filter.mp hc2).2

theorem clean_to_digits_fixed (out : String) (h : ∀ c ∈ out.data, isDigitC c = true) :
    clean_to_digits (some out) = out := by
  obtain ⟨ld⟩ := out
  cases ld with
  | nil => decide
  | cons d ds =>
    have hall : ∀ c ∈ d :: ds, isDigitC c = true := h
    have hlower : lowerStr (String.mk (d :: ds)) = String.mk (d :: ds) := by
      unfold lowerStr
      rw [show (String.mk (d :: ds)).data = d :: ds from rfl]
      rw [map_lowerC_digits (d :: ds) hall]
    have hnan : (lowerStr (String.mk (d :: ds)) == "nan") = false := by
      rw [hlower, beq_eq_false_iff_ne]
      intro he
      have hd : d :: ds = ['n', 'a', 'n'] := congrArg String.data he
      have hn : isDigitC 'n' = true := by
        apply hall
        rw [hd]
        exact List.mem_cons_self _ _
      exact absurd hn (by decide)
    have hstrip : stripStr (String.mk (d :: ds)) = String.mk (d :: ds) := by
      unfold stripStr
      rw [show (String.mk (d :: ds)).data = d :: ds from rfl]
      rw [stripL_no_space (fun c hc => digit_not_space c (hall c hc))]
    have hempty : (stripStr (String.mk (d :: ds)) == "") = false := by
      rw [hstrip, beq_eq_false_iff_ne]
      intro he
      exact absurd (congrArg String.data he) (by simp)
    rw [clean_to_digits_some]
    rw [hnan, hempty]
    simp only [Bool.or_self, Bool.false_eq_true, if_false]
    rw [List.takeWhile_eq_self_iff.mpr (fun c hc => digit_ne_dot c (hall c hc))]
    rw [List.filter_eq_self.mpr hall]
    rw [stripL_no_space (fun c hc => digit_not_space c (hall c hc))]

/-- C8: `clean_to_digits` is idempotent, and its output consists of decimal
digits only (possibly empty), for every input scalar including the missing
one. -/
theorem c8_clean_to_digits_idempotent (v : Option String) :
    clean_to_digits (some (clean_to_digits v)) = clean_to_digits v ∧
    (clean_to_digits v).data.all isDigitC = true := by
  constructor
  · exact clean_to_digits_fixed (clean_to_digits v) (clean_to_digits_all_digits v)
  · rw [List.all_eq_true]
    exact clean_to_digits_all_digits v

theorem processRows_list (st : String) (rows : List Record)
    (hn : 2 < (dedupF (rows.map (fun r => r.code))).length) :
    processRows st rows =
      ⟨true, "",
        Desc.LIST (upperStr st) (mkListTable (dedupF (rows.map (fun r => (r.code, r.name))))),
        DStatus.READY⟩ := by
  have hne : rows ≠ [] := by
    intro h0
    subst h0
    simp [dedupF, dedupFrom] at hn
  have hlt : 2 < (uniqueCodes rows).length := by
    unfold uniqueCodes
    rw [length_sortStr]
    exact hn
  simp [processRows, isEmpty_false_of_ne_nil rows hne, hlt]

/-- C4 counterexample: a store whose rows carry three distinct codes in the
order 2000, 1000, 3000 produces a LIST table in exactly that first-occurrence
order, which differs from the table of the same pairs sorted by code
ascending that the claim demands. -/
theorem c4_counterexample :
    (find_best_answer [⟨"2000", "bxx", "-", "d"⟩, ⟨"1000", "axx", "-", "d"⟩,
        ⟨"3000", "cxx", "-", "d"⟩] "xx" []).desc =
      Desc.LIST "XX" (mkListTable [("2000", "bxx"), ("1000", "axx"), ("3000", "cxx")]) ∧
    mkListTable [("2000", "bxx"), ("1000", "axx"), ("3000", "cxx")] ≠
      specSortedListTable [⟨"2000", "bxx", "-", "d"⟩, ⟨"1000", "axx", "-", "d"⟩,
        ⟨"3000", "cxx", "-", "d"⟩] := by
  decide

/-- C4 (amended): when the search yields more than two distinct codes, the
LIST table holds the distinct (code, name) pairs in order of their first
occurrence among the filtered rows (pandas drop_duplicates), not sorted by
code.  As in C1, a name search assumes a `regexFree` term, the domain on
which the modelled pandas filter is exact. -/
theorem c4_list_order_amended
    (df : List Record) (p : String) (hist : List Turn)
    (hdf : df ≠ [])
    (hintent : detect_intent (userText p) = Intent.TECHNICAL ∨
               detect_intent (userText p) = Intent.NAME_QUERY ∨
               detect_intent (userText p) = Intent.CODE_QUERY)
    (hterm : ¬((searchTerm (userText p)).data.length < 2 ∨ searchTerm (userText p) = "ok"))
    (hsc1 : ¬(detect_intent (userText p) = Intent.NAME_QUERY ∧
              firstCode (searchTerm (userText p)) ≠ none ∧
              searchRows df (searchTerm (userText p)) ≠ []))
    (hsc2 : ¬(detect_intent (userText p) = Intent.CODE_QUERY ∧
              firstCode (searchTerm (userText p)) = none ∧
              searchRows df (searchTerm (userText p)) ≠ []))
    (_hrf : firstCode (searchTerm (userText p)) = none →
              regexFree (searchTerm (userText p)) = true)
    (hn : 2 < (dedupF ((searchRows df (searchTerm (userText p))).map
        (fun r => r.code))).length) :
    find_best_answer df p hist =
      ⟨true, "",
        Desc.LIST (upperStr (searchTerm (userText p)))
          (mkListTable (dedupF ((searchRows df (searchTerm (userText p))).map
            (fun r => (r.code, r.name))))),
        DStatus.READY⟩ := by
  have h1 : detect_intent (userText p) ≠ Intent.EXIT := by
    rcases hintent with h | h | h <;> simp [h]
  have h2 : detect_intent (userText p) ≠ Intent.CONVERSATIONAL := by
    rcases hintent with h | h | h <;> simp [h]
  have h3 : detect_intent (userText p) ≠ Intent.CONFIRMATION := by
    rcases hintent with h | h | h <;> simp [h]
  rw [fba_eq_search df p hist hdf h1 h2 h3]
  unfold searchBranch
  rw [if_neg hterm]
  cases hfc : firstCode (searchTerm (userText p)) with
  | some c =>
    have hsr : searchRows df (searchTerm (userText p)) = codeRows df c :=
      searchRows_code df _ c hfc
    have hnq : ¬(detect_intent (userText p) = Intent.NAME_QUERY ∧ codeRows df c ≠ []) := by
      rintro ⟨ha, hb⟩
      apply hsc1
      refine ⟨ha, ?_, ?_⟩
      · rw [hfc]; simp
      · rw [hsr]; exact hb
    dsimp only
    rw [if_neg hnq]
    rw [hsr] at hn ⊢
    exact processRows_list _ _ hn
  | none =>
    have hsr : searchRows df (searchTerm (userText p)) =
        nameSearchRows df (searchTerm (userText p)) :=
      searchRows_name df _ hfc
    have hnq : ¬(detect_intent (userText p) = Intent.CODE_QUERY ∧
        nameSearchRows df (searchTerm (userText p)) ≠ []) := by
      rintro ⟨ha, hb⟩
      apply hsc2
      refine ⟨ha, hfc, ?_⟩
      rw [hsr]; exact hb
    dsimp only
    rw [if_neg hnq]
    rw [hsr] at hn ⊢
    exact processRows_list _ _ hn

theorem c4_list_order_amended_witness :
    find_best_answer [⟨"2000", "bxx", "-", "d"⟩, ⟨"1000", "axx", "-", "d"⟩,
        ⟨"3000", "cxx", "-", "d"⟩, ⟨"2000", "bxx", "9", "e"⟩] "xx" [] =
      ⟨true, "",
        Desc.LIST "XX" (mkListTable [("2000", "bxx"), ("1000", "axx"), ("3000", "cxx")]),
        DStatus.READY⟩ := by
  have h := c4_list_order_amended [⟨"2000", "bxx", "-", "d"⟩, ⟨"1000", "axx", "-", "d"⟩,
      ⟨"3000", "cxx", "-", "d"⟩, ⟨"2000", "bxx", "9", "e"⟩] "xx" []
    (by decide) (Or.inl (by decide)) (by decide) (by decide) (by decide) (by decide)
    (by decide)
  rw [h]
  decide

theorem hasPrefixL_append_self (p t : List Char) : hasPrefixL p (p ++ t) = true := by
  induction p with
  | nil => rfl
  | cons a ps ih => simp [hasPrefixL, ih]

theorem hasSubL_of_prefix (p l : List Char) (h : hasPrefixL p l = true) : hasSubL p l = true := by
  cases l with
  | nil => exact h
  | cons c t => simp [hasSubL, h]

theorem hasSubL_append_left (p xs ys : List Char) (h : hasSubL p ys = true) :
    hasSubL p (xs ++ ys) = true := by
  induction xs with
  | nil => exact h
  | cons x t ih => simp [hasSubL, ih]

theorem hasSubL_self_append (p t : List Char) : hasSubL p (p ++ t) = true :=
  hasSubL_of_prefix _ _ (hasPrefixL_append_self p t)

theorem render_single_eq (p0 nm cd tb : String) :
    generate_ai_response p0 (some (Desc.SINGLE nm cd tb)) DStatus.READY =
      "Technical Record for **" ++ nm ++ "** (Code: " ++ cd ++ ")\n\n" ++ tb ++ "\n\n" ++
        lightMarker ++ " **Suggestion:** Type **Yes** to see the 08 procedure." := rfl

theorem render_list_eq (p0 q ct : String) :
    generate_ai_response p0 (some (Desc.LIST q ct)) DStatus.READY =
      "I found several entries for **" ++ q ++ "**:\n\n" ++ ct ++ "\n\n" ++
        lightMarker ++ " Please type the specific **Access Code** you need." := rfl

theorem render_compare_eq (p0 q tb : String) :
    generate_ai_response p0 (some (Desc.COMPARE q tb)) DStatus.READY =
      "### ðŸ“Š Side-by-Side Comparison: " ++ q ++ "\n\n" ++ tb ++ "\n\n" ++
        lightMarker ++ " **Tip:** Use these to check state differences." := rfl

/-- C9 counterexample: a record whose description embeds both the sub-code
offer phrase and a `(Code: 1234)` tag makes the rendered SINGLE response
contain the sub-code marker, so a following bare "yes" resolves to SUB_TABLE,
not to SHOW_PROCEDURE as the claim demands. -/
theorem c9_counterexample :
    (find_best_answer [⟨"1234", "x", "-", "know the sub code (Code: 1234)"⟩] "1234" []).desc.tag
      = Tag.SINGLE_T ∧
    (find_best_answer [⟨"1234", "x", "-", "know the sub code (Code: 1234)"⟩] "yes"
        [⟨"assistant",
          generate_ai_response "1234"
            (some ((find_best_answer [⟨"1234", "x", "-", "know the sub code (Code: 1234)"⟩]
                "1234" []).desc))
            ((find_best_answer [⟨"1234", "x", "-", "know the sub code (Code: 1234)"⟩]
                "1234" []).status)⟩]).status ≠ DStatus.SHOW_PROCEDURE ∧
    (find_best_answer [⟨"1234", "x", "-", "know the sub code (Code: 1234)"⟩] "yes"
        [⟨"assistant",
          generate_ai_response "1234"
            (some ((find_best_answer [⟨"1234", "x", "-", "know the sub code (Code: 1234)"⟩]
                "1234" []).desc))
            ((find_best_answer [⟨"1234", "x", "-", "know the sub code (Code: 1234)"⟩]
                "1234" []).status)⟩]).desc.tag = Tag.SUB_TABLE_T := by
  decide

/-- C9 (amended): every rendered SINGLE, LIST or COMPARE response contains
the light-bulb procedure marker the resolver checks; provided the rendered
response does not also contain the sub-code offer phrase (record fields can
inject it), a bare confirmation whose last assistant turn is that response
resolves to SHOW_PROCEDURE. -/
theorem c9_procedure_amended
    (df : List Record) (p p0 : String) (hist : List Turn)
    (nm cd tb q ct q2 tb2 : String) (r : String)
    (hdf : df ≠ [])
    (hint : detect_intent (userText p) = Intent.CONFIRMATION)
    (hr : r = generate_ai_response p0 (some (Desc.SINGLE nm cd tb)) DStatus.READY ∨
          r = generate_ai_response p0 (some (Desc.LIST q ct)) DStatus.READY ∨
          r = generate_ai_response p0 (some (Desc.COMPARE q2 tb2)) DStatus.READY) :
    hasSubL lightMarker.data r.data = true ∧
    (hasSubL subMarker.data r.data = false →
      find_best_answer df p (hist ++ [⟨"assistant", r⟩]) =
        ⟨true, "", Desc.EMPTY, DStatus.SHOW_PROCEDURE⟩) := by
  have hlight : hasSubL lightMarker.data r.data = true := by
    rcases hr with h | h | h
    · rw [h, render_single_eq]
      simp only [String.data_append, List.append_assoc]
      apply hasSubL_append_left
      apply hasSubL_append_left
      apply hasSubL_append_left
      apply hasSubL_append_left
      apply hasSubL_append_left
      apply hasSubL_append_left
      apply hasSubL_append_left
      exact hasSubL_self_append _ _
    · rw [h, render_list_eq]
      simp only [String.data_append, List.append_assoc]
      apply hasSubL_append_left
      apply hasSubL_append_left
      apply hasSubL_append_left
      apply hasSubL_append_left
      apply hasSubL_append_left
      exact hasSubL_self_append _ _
    · rw [h, render_compare_eq]
      simp only [String.data_append, List.append_assoc]
      apply hasSubL_append_left
      apply hasSubL_append_left
      apply hasSubL_append_left
      apply hasSubL_append_left
      apply hasSubL_append_left
      exact hasSubL_self_append _ _
  refine ⟨hlight, fun hsub => ?_⟩
  rw [fba_eq_confirm df p (hist ++ [Turn.mk "assistant" r]) hdf hint]
  unfold confirmBranch
  rw [List.getLast?_concat]
  dsimp only
  rw [hsub]
  simp [hlight]

theorem c9_procedure_amended_witness :
    hasSubL lightMarker.data
      (generate_ai_response "q" (some (Desc.SINGLE "n" "1" "t")) DStatus.READY).data = true ∧
    find_best_answer [⟨"1", "n", "-", "d"⟩] "yes"
        [⟨"assistant", generate_ai_response "q" (some (Desc.SINGLE "n" "1" "t")) DStatus.READY⟩] =
      ⟨true, "", Desc.EMPTY, DStatus.SHOW_PROCEDURE⟩ := by
  have h := c9_procedure_amended [⟨"1", "n", "-", "d"⟩] "yes" "q" [] "n" "1" "t" "" "" "" ""
    (generate_ai_response "q" (some (Desc.SINGLE "n" "1" "t")) DStatus.READY)
    (by decide) (by decide) (Or.inl rfl)
  exact ⟨h.1, h.2 (by decide)⟩

theorem hasSubL_false_parts (p : List Char) (c : Char) (t : List Char)
    (h : hasSubL p (c :: t) = false) :
    hasPrefixL p (c :: t) = false ∧ hasSubL p t = false := by
  simpa only [hasSubL, Bool.or_eq_false_iff] using h

theorem hasSubL_refl (p : List Char) : hasSubL p p = true := by
  have h := hasSubL_self_append p []
  rwa [List.append_nil] at h

theorem hasPrefixL_mono (a b : List Char) :
    ∀ l, hasPrefixL (a ++ b) l = true → hasPrefixL a l = true := by
  induction a with
  | nil => intro l h; rfl
  | cons x xs ih =>
    intro l h
    cases l with
    | nil => exact absurd h (by simp [hasPrefixL])
    | cons c cs =>
      simp only [List.cons_append, hasPrefixL, Bool.and_eq_true] at h ⊢
      exact ⟨h.1, ih cs h.2⟩

theorem dropPref_eq_some (p : List Char) :
    ∀ (l r : List Char), dropPref p l = some r ↔ l = p ++ r := by
  induction p with
  | nil => intro l r; simp [dropPref]
  | cons a ps ih =>
    intro l r
    cases l with
    | nil => simp [dropPref]
    | cons c cs =>
      by_cases hac : a = c
      · subst hac
        simp [dropPref, ih cs r]
      · have hbeq : (a == c) = false := beq_eq_false_iff_ne.mpr hac
        have hne : c ≠ a := Ne.symm hac
        simp [dropPref, hbeq, hne]

theorem dropPref_self_append (p t : List Char) : dropPref p (p ++ t) = some t :=
  (dropPref_eq_some p (p ++ t) t).mpr rfl

theorem dropPref_append_split (p : List Char) :
    ∀ (s ys r : List Char), dropPref p (s ++ ys) = some r →
      hasPrefixL p s = true ∨ ∃ q, dropPref s p = some q ∧ dropPref q ys = some r := by
  induction p with
  | nil => intro s ys r _; left; rfl
  | cons a ps ih =>
    intro s ys r h
    cases s with
    | nil => exact Or.inr ⟨a :: ps, rfl, h⟩
    | cons b bs =>
      by_cases hab : a = b
      · subst hab
        rw [List.cons_append] at h
        simp only [dropPref, beq_self_eq_true, if_true] at h
        rcases ih bs ys r h with hpre | ⟨q, hq1, hq2⟩
        · left
          simp [hasPrefixL, hpre]
        · right
          refine ⟨q, ?_, hq2⟩
          simpa [dropPref] using hq1
      · rw [List.cons_append] at h
        simp [dropPref, beq_eq_false_iff_ne.mpr hab] at h

theorem codeTagAt_none_of_head (c : Char) (l : List Char) (h : c ≠ '(') :
    codeTagAt (c :: l) = none := by
  unfold codeTagAt
  have hd : dropPref "(Code: ".data (c :: l) = none := by
    rw [show "(Code: ".data = '(' :: "Code: ".data from rfl]
    simp [dropPref, beq_eq_false_iff_ne.mpr (Ne.symm h)]
  rw [hd]

theorem findTag_cons_none (c : Char) (l : List Char) (h : codeTagAt (c :: l) = none) :
    findTag (c :: l) = findTag l := by
  simp [findTag, h]

theorem noParen_skip (xs ys : List Char) (h : ∀ c ∈ xs, c ≠ '(') :
    findTag (xs ++ ys) = findTag ys := by
  induction xs with
  | nil => rfl
  | cons x t ih =>
    rw [List.cons_append,
      findTag_cons_none x (t ++ ys) (codeTagAt_none_of_head x _ (h x (List.mem_cons_self x t)))]
    exact ih (fun c hc => h c (List.mem_cons_of_mem x hc))

theorem hasPrefix_codetag6_of_codetag7 (l : List Char)
    (h : hasPrefixL "(Code: ".data l = true) : hasSubL "(Code:".data l = true := by
  apply hasSubL_of_prefix
  apply hasPrefixL_mono "(Code:".data [' '] l
  rw [show "(Code:".data ++ [' '] = "(Code: ".data from rfl]
  exact h

theorem marked_skip (s t3 : List Char) (hs : hasSubL "(Code:".data s = false) :
    findTag (s ++ '*' :: t3) = findTag ('*' :: t3) := by
  induction s with
  | nil => rfl
  | cons c t ih =>
    have hparts := hasSubL_false_parts _ c t hs
    rw [List.cons_append, findTag_cons_none c (t ++ '*' :: t3) ?hnone]
    · exact ih hparts.2
    case hnone =>
      cases hd : dropPref "(Code: ".data (c :: (t ++ '*' :: t3)) with
      | none =>
        unfold codeTagAt
        rw [hd]
      | some rest =>
        exfalso
        have hd2 : dropPref "(Code: ".data ((c :: t) ++ '*' :: t3) = some rest := hd
        rcases dropPref_append_split "(Code: ".data (c :: t) ('*' :: t3) rest hd2 with
          hpre | ⟨q, hq1, hq2⟩
        · have hx := hasPrefix_codetag6_of_codetag7 (c :: t) hpre
          rw [hs] at hx
          exact Bool.false_ne_true hx
        · cases q with
          | nil =>
            have he := (dropPref_eq_some (c :: t) "(Code: ".data []).mp hq1
            rw [List.append_nil] at he
            have hpre2 : hasPrefixL "(Code: ".data (c :: t) = true := by
              rw [← he]
              have h0 := hasPrefixL_append_self "(Code: ".data []
              rwa [List.append_nil] at h0
            have hx := hasPrefix_codetag6_of_codetag7 (c :: t) hpre2
            rw [hs] at hx
            exact Bool.false_ne_true hx
          | cons d q2 =>
            have hd3 := (dropPref_eq_some (d :: q2) ('*' :: t3) rest).mp hq2
            rw [List.cons_append] at hd3
            have hdy : d = '*' := by
              injection hd3 with h1 _
              exact h1.symm
            have he := (dropPref_eq_some (c :: t) "(Code: ".data (d :: q2)).mp hq1
            have hmem : d ∈ "(Code: ".data := by
              rw [he]
              exact List.mem_append_right _ (List.mem_cons_self d q2)
            rw [hdy] at hmem
            exact absurd hmem (by decide)

theorem star_skip (l : List Char) : findTag ('*' :: l) = findTag l :=
  findTag_cons_none '*' l (codeTagAt_none_of_head '*' l (by decide))

theorem takeWhile_digits_append (l : List Char) (y : Char) (t : List Char)
    (h : ∀ c ∈ l, isDigitC c = true) (hy : isDigitC y = false) :
    (l ++ y :: t).takeWhile isDigitC = l := by
  induction l with
  | nil => simp [List.takeWhile_cons, hy]
  | cons c cs ih =>
    rw [List.cons_append, List.takeWhile_cons, h c (List.mem_cons_self c cs)]
    simp only [if_true]
    rw [ih (fun x hx => h x (List.mem_cons_of_mem c hx))]

theorem findTag_at_tag (code t2 : List Char) (h1 : code ≠ [])
    (h2 : ∀ c ∈ code, isDigitC c = true) :
    findTag ("(Code: ".data ++ (code ++ ')' :: t2)) = some code := by
  have htake : (code ++ ')' :: t2).takeWhile isDigitC = code :=
    takeWhile_digits_append code ')' t2 h2 (by decide)
  have hct : codeTagAt ("(Code: ".data ++ (code ++ ')' :: t2)) = some code := by
    unfold codeTagAt
    rw [dropPref_self_append]
    dsimp only
    rw [htake, List.drop_left]
    cases code with
    | nil => exact absurd rfl h1
    | cons d ds => rfl
  rw [show "(Code: ".data ++ (code ++ ')' :: t2) =
    '(' :: ("Code: ".data ++ (code ++ ')' :: t2)) from rfl] at hct ⊢
  rw [show findTag ('(' :: ("Code: ".data ++ (code ++ ')' :: t2))) =
    (match codeTagAt ('(' :: ("Code: ".data ++ (code ++ ')' :: t2))) with
     | some ds => some ds
     | none => findTag ("Code: ".data ++ (code ++ ')' :: t2))) from rfl]
  rw [hct]

theorem render_nameonly_nq_eq (p0 nm cd : String) (h : detect_intent p0 = Intent.NAME_QUERY) :
    generate_ai_response p0 (some (Desc.NAME_ONLY nm cd)) DStatus.READY =
      "The setting name for **" ++ cd ++ "** is **" ++ nm ++ "**.\n\n " ++ lightMarker ++
        " Do you want to know the sub code for that? (Code: " ++ cd ++ ")" := by
  unfold generate_ai_response
  rw [if_neg (by decide : DStatus.READY ≠ DStatus.DATA_MISSING),
    if_neg (by decide : DStatus.READY ≠ DStatus.SHOW_PROCEDURE)]
  dsimp only
  rw [if_pos h]

theorem render_nameonly_other_eq (p0 nm cd : String)
    (h : detect_intent p0 ≠ Intent.NAME_QUERY) :
    generate_ai_response p0 (some (Desc.NAME_ONLY nm cd)) DStatus.READY =
      "The Access Code for **" ++ nm ++ "** is **" ++ cd ++ "**.\n\n " ++ lightMarker ++
        " Do you want to know the sub code for that? (Code: " ++ cd ++ ")" := by
  unfold generate_ai_response
  rw [if_neg (by decide : DStatus.READY ≠ DStatus.DATA_MISSING),
    if_neg (by decide : DStatus.READY ≠ DStatus.SHOW_PROCEDURE)]
  dsimp only
  rw [if_neg h]

theorem findTag_at_tag_str (cd : String) (h1 : cd.data ≠ [])
    (h2 : ∀ c ∈ cd.data, isDigitC c = true) :
    findTag ("(Code: ".data ++ (cd.data ++ (")" : String).data)) = some cd.data := by
  rw [show (")" : String).data = ')' :: ([] : List Char) from rfl]
  exact findTag_at_tag cd.data [] h1 h2

theorem findTag_render_nameonly (p0 nm cd : String)
    (hname : hasSubL "(Code:".data nm.data = false)
    (hc1 : cd.data ≠ []) (hc2 : ∀ c ∈ cd.data, isDigitC c = true) :
    findTag (generate_ai_response p0 (some (Desc.NAME_ONLY nm cd)) DStatus.READY).data =
      some cd.data := by
  have hnoparen : ∀ c ∈ cd.data, c ≠ '(' := fun c hc => digit_ne_paren c (hc2 c hc)
  by_cases hq : detect_intent p0 = Intent.NAME_QUERY
  · rw [render_nameonly_nq_eq p0 nm cd hq]
    rw [show (" Do you want to know the sub code for that? (Code: " : String) =
      " Do you want to know the sub code for that? " ++ "(Code: " from rfl]
    simp only [String.data_append, List.append_assoc]
    rw [noParen_skip ("The setting name for **" : String).data _ (by decide)]
    rw [noParen_skip cd.data _ hnoparen]
    rw [noParen_skip ("** is **" : String).data _ (by decide)]
    rw [List.cons_append]
    rw [marked_skip nm.data _ hname]
    rw [star_skip]
    rw [noParen_skip (['*', '.', '\n', '\n', ' '] : List Char) _ (by decide)]
    rw [noParen_skip lightMarker.data _ (by decide)]
    rw [noParen_skip (" Do you want to know the sub code for that? " : String).data _ (by decide)]
    exact findTag_at_tag_str cd hc1 hc2
  · rw [render_nameonly_other_eq p0 nm cd hq]
    rw [show (" Do you want to know the sub code for that? (Code: " : String) =
      " Do you want to know the sub code for that? " ++ "(Code: " from rfl]
    simp only [String.data_append, List.append_assoc]
    rw [noParen_skip ("The Access Code for **" : String).data _ (by decide)]
    rw [List.cons_append]
    rw [marked_skip nm.data _ hname]
    rw [star_skip]
    rw [noParen_skip (['*', ' ', 'i', 's', ' ', '*', '*'] : List Char) _ (by decide)]
    rw [noParen_skip cd.data _ hnoparen]
    rw [noParen_skip ("**.\n\n " : String).data _ (by decide)]
    rw [noParen_skip lightMarker.data _ (by decide)]
    rw [noParen_skip (" Do you want to know the sub code for that? " : String).data _ (by decide)]
    exact findTag_at_tag_str cd hc1 hc2

theorem subMarker_in_render_nameonly (p0 nm cd : String) :
    hasSubL subMarker.data
      (generate_ai_response p0 (some (Desc.NAME_ONLY nm cd)) DStatus.READY).data = true := by
  by_cases hq : detect_intent p0 = Intent.NAME_QUERY
  · rw [render_nameonly_nq_eq p0 nm cd hq]
    rw [show (" Do you want to know the sub code for that? (Code: " : String) =
      " Do you want to " ++ (subMarker ++ " for that? (Code: ") from rfl]
    simp only [String.data_append, List.append_assoc]
    apply hasSubL_append_left
    apply hasSubL_append_left
    apply hasSubL_append_left
    apply hasSubL_append_left
    apply hasSubL_append_left
    apply hasSubL_append_left
    apply hasSubL_append_left
    exact hasSubL_self_append _ _
  · rw [render_nameonly_other_eq p0 nm cd hq]
    rw [show (" Do you want to know the sub code for that? (Code: " : String) =
      " Do you want to " ++ (subMarker ++ " for that? (Code: ") from rfl]
    simp only [String.data_append, List.append_assoc]
    apply hasSubL_append_left
    apply hasSubL_append_left
    apply hasSubL_append_left
    apply hasSubL_append_left
    apply hasSubL_append_left
    apply hasSubL_append_left
    apply hasSubL_append_left
    exact hasSubL_self_append _ _

theorem codetag_in_render_nameonly (p0 nm cd : String) :
    hasSubL ("(Code: " ++ cd ++ ")").data
      (generate_ai_response p0 (some (Desc.NAME_ONLY nm cd)) DStatus.READY).data = true := by
  by_cases hq : detect_intent p0 = Intent.NAME_QUERY
  · rw [render_nameonly_nq_eq p0 nm cd hq]
    rw [show (" Do you want to know the sub code for that? (Code: " : String) =
      " Do you want to know the sub code for that? " ++ "(Code: " from rfl]
    simp only [String.data_append, List.append_assoc]
    apply hasSubL_append_left
    apply hasSubL_append_left
    apply hasSubL_append_left
    apply hasSubL_append_left
    apply hasSubL_append_left
    apply hasSubL_append_left
    apply hasSubL_append_left
    exact hasSubL_refl _
  · rw [render_nameonly_other_eq p0 nm cd hq]
    rw [show (" Do you want to know the sub code for that? (Code: " : String) =
      " Do you want to know the sub code for that? " ++ "(Code: " from rfl]
    simp only [String.data_append, List.append_assoc]
    apply hasSubL_append_left
    apply hasSubL_append_left
    apply hasSubL_append_left
    apply hasSubL_append_left
    apply hasSubL_append_left
    apply hasSubL_append_left
    apply hasSubL_append_left
    exact hasSubL_refl _

/-- C2 counterexample: the claim quantifies over every record store and every
name.  With the empty store the round trip resolves to NOT_FOUND, not
SUB_TABLE; and a name that itself embeds a `(Code: 9999)` tag makes the
resolver extract 9999 instead of the rendered descriptor code 1234. -/
theorem c2_counterexample :
    (find_best_answer [] "yes"
        [⟨"assistant",
          generate_ai_response "q" (some (Desc.NAME_ONLY "N" "621")) DStatus.READY⟩]).desc.tag =
      Tag.NOT_FOUND_T ∧
    (find_best_answer [⟨"1234", "(Code: 9999)", "-", "No data"⟩] "yes"
        [⟨"assistant",
          generate_ai_response "q"
            (some (Desc.NAME_ONLY "(Code: 9999)" "1234")) DStatus.READY⟩]).desc ≠
      Desc.SUB_TABLE
        (mkSubTable (codeRows [⟨"1234", "(Code: 9999)", "-", "No data"⟩] "1234")) "1234" := by
  decide

/-- C2 (amended): for every NON-EMPTY record store, every name that does not
contain the substring "(Code:", and every non-empty digit code, the rendered
NAME_ONLY response contains the exact substring (Code: [code]), and feeding it
back as the last assistant turn with the utterance "yes" resolves to the
SUB_TABLE descriptor carrying that code and the sub-code table of the rows
matching it, with status READY. -/
theorem c2_roundtrip_amended
    (df : List Record) (p0 nm cd : String) (hist : List Turn)
    (hdf : df ≠ [])
    (hname : hasSubL "(Code:".data nm.data = false)
    (hc1 : cd.data ≠ [])
    (hc2 : ∀ c ∈ cd.data, isDigitC c = true) :
    hasSubL ("(Code: " ++ cd ++ ")").data
      (generate_ai_response p0 (some (Desc.NAME_ONLY nm cd)) DStatus.READY).data = true ∧
    find_best_answer df "yes"
        (hist ++ [Turn.mk "assistant"
          (generate_ai_response p0 (some (Desc.NAME_ONLY nm cd)) DStatus.READY)]) =
      ⟨true, "", Desc.SUB_TABLE (mkSubTable (codeRows df cd)) cd, DStatus.READY⟩ := by
  refine ⟨codetag_in_render_nameonly p0 nm cd, ?_⟩
  rw [fba_eq_confirm df "yes" _ hdf (by decide)]
  unfold confirmBranch
  rw [List.getLast?_concat]
  dsimp only
  rw [subMarker_in_render_nameonly p0 nm cd]
  simp only [if_true]
  rw [findTag_render_nameonly p0 nm cd hname hc1 hc2]

theorem c2_roundtrip_amended_witness :
    hasSubL ("(Code: " ++ "621" ++ ")").data
      (generate_ai_response "what is the name of code 621"
        (some (Desc.NAME_ONLY "Network Protocol" "621")) DStatus.READY).data = true ∧
    find_best_answer [⟨"621", "Network Protocol", "-", "No data"⟩] "yes"
        [Turn.mk "assistant"
          (generate_ai_response "what is the name of code 621"
            (some (Desc.NAME_ONLY "Network Protocol" "621")) DStatus.READY)] =
      ⟨true, "",
        Desc.SUB_TABLE
          (mkSubTable (codeRows [⟨"621", "Network Protocol", "-", "No data"⟩] "621")) "621",
        DStatus.READY⟩ :=
  c2_roundtrip_amended [⟨"621", "Network Protocol", "-", "No data"⟩]
    "what is the name of code 621" "Network Protocol" "621" []
    (by decide) (by decide) (by decide) (by decide)
